import Mathlib

/-!
Shallow embedding of the MySQL bulk-load dumper
(`pkg/dumper/mysql/mysql.go` of yylover/klepto) and proofs about it.

The Go code consumes a channel of rows and writes them to a MySQL table in
transactional batches.  We model the row channel as a `List Row` (the finite
stream of rows still to be delivered, in order), machine `int64` counters as
`Int`, and the fallible database calls by explicit success/failure parameters.
-/

namespace Klepto

/-- A field value as the Go code distinguishes them in its `switch` over
`row[col]`: SQL `nil`, a `string`, or a `[]uint8` binary blob (we carry the
blob bytes as the characters of the text they decode to, matching the Go
conversion `string([]uint8)`). -/
inductive Value where
  | vnull : Value
  | text (s : String) : Value
  | blob (bs : List Char) : Value
deriving DecidableEq

/-- `const null = "NULL"` from the source. -/
def null : String := "NULL"

/-- A `database.Row` is a map from column name to value; we embed it as an
association list.  A missing key in a Go map yields the zero value `nil`,
which the encoding `switch` handles through its `case nil` arm. -/
abbrev Row : Type := List (String × Value)

/-- Looking up `row[col]` in Go: a missing entry yields `nil`. -/
def rowGet (row : Row) (col : String) : Value :=
  (List.lookup col row).getD Value.vnull

/-- The value-encoding `switch` of `insertIntoTable` (mysql.go:231-241):
`nil` becomes the literal `NULL`, a `string` is used unchanged, a `[]uint8`
blob becomes `string(bytes)`. -/
def encodeFieldStream : Value → String
  | Value.vnull => null
  | Value.text s => s
  | Value.blob bs => String.mk bs

/-- The value-encoding `switch` of `insertIntoTableReplace` (mysql.go:299-309),
textually duplicated from the streaming one in the source. -/
def encodeFieldReplace : Value → String
  | Value.vnull => null
  | Value.text s => s
  | Value.blob bs => String.mk bs

/-- The backtick character. -/
def btick : Char := Char.ofNat 96

/-- One step of the Go call `strings.Replace(name, backtick, two backticks, -1)`:
each backtick is doubled, every other character kept. -/
def escapeBtick (c : Char) : List Char :=
  if c = btick then [btick, btick] else [c]

/-- `quoteIdentifier` (mysql.go:338-340): wrap the name in backticks after
doubling each embedded backtick. -/
def quoteIdentifier (name : String) : String :=
  String.mk (btick :: (name.toList.map escapeBtick).flatten ++ [btick])

/-- Inverse direction, following how the claim describes unquoting:
collapse each doubled backtick back to one. -/
def unescapeBtick : List Char → List Char
  | [] => []
  | [c] => [c]
  | c₁ :: c₂ :: rest =>
    if c₁ = btick then btick :: unescapeBtick rest
    else c₁ :: unescapeBtick (c₂ :: rest)

/-- Unquoting per the claim: strip the outer backticks and collapse each
doubled backtick; `none` when the outer backticks are absent. -/
def unquoteIdentifier (s : String) : Option String :=
  let cs := s.toList
  if 2 ≤ cs.length ∧ cs.head? = some btick ∧ cs.getLast? = some btick then
    some (String.mk (unescapeBtick ((cs.drop 1).dropLast)))
  else none

/-- Join a list of strings with a separator, as `strings.Join` does in Go. -/
def sepJoin (sep : String) : List String → String
  | [] => ""
  | [g] => g
  | g :: g' :: rest => g ++ sep ++ sepJoin sep (g' :: rest)

/-- The field values of one row in column order, as both strategies build
`rowValues` (mysql.go:229-242 and 296-310), using the streaming encoder. -/
def rowValuesStream (columns : List String) (row : Row) : List String :=
  columns.map (fun col => encodeFieldStream (rowGet row col))

/-- `rowValues` as built by the buffered replace strategy. -/
def rowValuesReplace (columns : List String) (row : Row) : List String :=
  columns.map (fun col => encodeFieldReplace (rowGet row col))

/-- The loop of the producer goroutine in `insertIntoTable` (mysql.go:222-252):
drain the channel, emit one csv record per row, count it, and stop once
`inserted >= batch`.  Returns the final `inserted` counter, the records
handed to the csv writer, and the rows still left in the channel. -/
def csvLoop (columns : List String) (batch : Int) (inserted : Int) :
    List Row → Int × List (List String) × List Row
  | [] => (inserted, [], [])
  | row :: rest =>
    let rowValues := rowValuesStream columns row
    let inserted' := inserted + 1
    if batch ≤ inserted' then (inserted', [rowValues], rest)
    else
      let r := csvLoop columns batch inserted' rest
      (r.1, rowValues :: r.2.1, r.2.2)

/-- The no-failure path of `insertIntoTable` (mysql.go:193-268): the rows
written (as csv records), the returned `inserted` count, and the remaining
channel contents.  Statement execution and the LOAD DATA side are external
calls and assumed to succeed here. -/
def insertIntoTable (columns : List String) (batch : Int) (rowChan : List Row) :
    Int × List (List String) × List Row :=
  csvLoop columns batch 0 rowChan

/-- The row-accumulation loop of `insertIntoTableReplace` (mysql.go:290-320):
append `,` before every group but the first (`inserted != 0`), then
`(` ++ values joined by `,` ++ `)`, count the row, stop at `batch`. -/
def replaceLoop (columns : List String) (batch : Int) (inserted : Int) (buf : String) :
    List Row → Int × String × List Row
  | [] => (inserted, buf, [])
  | row :: rest =>
    let rowValues := rowValuesReplace columns row
    let buf' := (if inserted ≠ 0 then buf ++ "," else buf) ++
      "(" ++ sepJoin "," rowValues ++ ")"
    let inserted' := inserted + 1
    if batch ≤ inserted' then (inserted', buf', rest)
    else replaceLoop columns batch inserted' buf' rest

/-- The no-failure path of `insertIntoTableReplace` (mysql.go:270-336):
returns the `inserted` count, the statement text executed (`none` when
`inserted == 0`, where the function returns before executing anything),
and the remaining channel contents.  The table name is embedded raw. -/
def insertIntoTableReplace (tableName : String) (columns : List String)
    (batch : Int) (rowChan : List Row) : Int × Option String × List Row :=
  let r := replaceLoop columns batch 0 ("replace into " ++ tableName ++ " values ") rowChan
  if r.1 = 0 then (0, none, r.2.2)
  else (r.1, some r.2.1, r.2.2)

/-- The statement text the claim describes for the buffered replace strategy:
`replace into <table> values ` then, for each consumed row, its encoded fields in
parentheses joined by commas, the row groups joined by commas, all verbatim. -/
def specReplaceStatement (tableName : String) (columns : List String)
    (rows : List Row) : String :=
  "replace into " ++ tableName ++ " values " ++
    sepJoin "," (rows.map (fun row => "(" ++ sepJoin "," (rowValuesReplace columns row) ++ ")"))

/-- One `trunkInsert` call (mysql.go:141-168) on the success path: a fresh
transaction around one `insertIntoTable` batch.  Only the count and the
remaining channel matter to the batching loop. -/
def trunkInsertStep (columns : List String) (batch : Int) (rowChan : List Row) :
    Int × List Row :=
  let r := insertIntoTable columns batch rowChan
  (r.1, r.2.2)

/-- The batching loop of `DumpTable` (mysql.go:129-136) on the success path:
`inserted` starts at `batch` and the loop re-runs `trunkInsert` while
`inserted == batch`.  Returns `(number of trunkInsert invocations, sum of the
per-invocation inserted counts, remaining channel)`; `none` only when the
fuel runs out (the Go loop would not have terminated yet). -/
def dumpLoop (columns : List String) (batch : Int) :
    Nat → Int → List Row → Option (Nat × Int × List Row)
  | 0, inserted, stream =>
    if inserted = batch then none else some (0, 0, stream)
  | fuel + 1, inserted, stream =>
    if inserted = batch then
      let s := trunkInsertStep columns batch stream
      (dumpLoop columns batch fuel s.1 s.2).map
        (fun r => (r.1 + 1, r.2.1 + s.1, r.2.2))
    else some (0, 0, stream)

/-- The success path of the write loop of `DumpTable` (mysql.go:129-136), with
enough fuel to cover any batch size of at least 1. -/
def dumpTable (columns : List String) (batch : Int) (rowChan : List Row) :
    Option (Nat × Int × List Row) :=
  dumpLoop columns batch (rowChan.length + 1) batch rowChan

/-- How a `DumpTable` call can end: normal return, an error value returned to
the caller, or `log.Panic` (which logs and terminates the process). -/
inductive DumpResult where
  | ok : DumpResult
  | fail (msg : String) : DumpResult
  | panicked (msg : String) : DumpResult
deriving DecidableEq

/-- The write loop of `DumpTable` (mysql.go:129-136) with a failure schedule:
`errs i` is the error, if any, returned by the `i`-th `trunkInsert`
invocation.  The source reads `if err != nil { log.Panic(err) }`, so an
erroring batch ends in `DumpResult.panicked`, not in an error return. -/
def dumpLoopErr (columns : List String) (batch : Int) (errs : Nat → Option String) :
    Nat → Nat → Int → List Row → DumpResult
  | 0, _, _, _ => DumpResult.ok
  | fuel + 1, calls, inserted, stream =>
    if inserted = batch then
      match errs calls with
      | some e => DumpResult.panicked e
      | none =>
        let s := trunkInsertStep columns batch stream
        dumpLoopErr columns batch errs fuel (calls + 1) s.1 s.2
    else DumpResult.ok

/-- `DumpTable` under a failure schedule for its `trunkInsert` calls. -/
def dumpTableErr (columns : List String) (batch : Int) (errs : Nat → Option String)
    (rowChan : List Row) : DumpResult :=
  dumpLoopErr columns batch errs (rowChan.length + 1) 0 batch rowChan

/-- The session state relevant to the local_infile guard: whether the
`sync.Once` has fired, and `disableGlobalInline` (mysql.go:79-85). -/
structure DumperState where
  onceDone : Bool
  disableGlobalInline : Bool
deriving DecidableEq

/-- The fresh dumper produced by `NewDumper` (mysql.go:89-95): the zero value
of both flags. -/
def initialDumper : DumperState := { onceDone := false, disableGlobalInline := false }

/-- The server-side circumstances the guard body meets: whether the
`SELECT @@GLOBAL.local_infile` scan succeeds, the value it reads, and whether
`SET GLOBAL local_infile=1` succeeds. -/
structure GuardEnv where
  readOk : Bool
  serverEnabled : Bool
  setOk : Bool

/-- The `d.setGlobalInline.Do` prologue of `DumpTable` (mysql.go:109-127):
runs the body only on the first call; the body reads the global setting and,
when it is off, turns it on and records `disableGlobalInline = true`.
Returns the new state, how many reads of `@@GLOBAL.local_infile` were
issued (0 or 1), and whether `DumpTable` returns an error from this prologue. -/
def setGlobalInlineStep (st : DumperState) (env : GuardEnv) : DumperState × Nat × Bool :=
  if st.onceDone then (st, 0, false)
  else if env.readOk = false then
    ({ st with onceDone := true }, 1, true)
  else if env.serverEnabled then
    ({ st with onceDone := true }, 1, false)
  else if env.setOk then
    ({ onceDone := true, disableGlobalInline := true }, 1, false)
  else
    ({ st with onceDone := true }, 1, true)

/-- A session: `n` successive `DumpTable` calls from a fresh dumper, under a
fixed server environment.  Returns the final state and the total number of
`@@GLOBAL.local_infile` reads issued. -/
def runDumpTableCalls (env : GuardEnv) : Nat → DumperState × Nat
  | 0 => (initialDumper, 0)
  | n + 1 =>
    let r := runDumpTableCalls env n
    let s := setGlobalInlineStep r.1 env
    (s.1, r.2 + s.2.1)

/-- Whether `Close` (mysql.go:171-175) issues `SET GLOBAL local_infile=0`:
exactly when `disableGlobalInline` is set. -/
def closeIssuesReset (st : DumperState) : Bool :=
  st.disableGlobalInline

/-- `Close` (mysql.go:171-191), with the two external calls made explicit:
`resetErr` is the error of `SET GLOBAL local_infile=0` when it is issued, and
`closeErr` the error of `conn.Close()`.  Returns the error message `Close`
reports, `none` for a nil error.  `fmt.Errorf("...: %w", e)` is modelled as
the format text followed by the wrapped error's message. -/
def closeDumper (st : DumperState) (resetErr : Option String) (closeErr : Option String) :
    Option String :=
  let errGlobalInline := if st.disableGlobalInline then resetErr else none
  match closeErr with
  | some ce =>
    match errGlobalInline with
    | some ge =>
      some ("failed to close mysql connection and `SET GLOBAL local_infile=0`: " ++ ge)
    | none => some ("failed to close mysql connection: " ++ ce)
  | none =>
    match errGlobalInline with
    | some ge => some ("failed `SET GLOBAL local_infile=0` please do this manually! : " ++ ge)
    | none => none

/-- The tail of a comma-separated joining: every group preceded by `,`. -/
def commaTail : List String → String
  | [] => ""
  | g :: rest => "," ++ g ++ commaTail rest

/-- One `trunkInsert`-shaped call driving the buffered replace strategy:
count and remaining channel of one `insertIntoTableReplace` batch. -/
def trunkInsertStepReplace (tableName : String) (columns : List String)
    (batch : Int) (rowChan : List Row) : Int × List Row :=
  let r := insertIntoTableReplace tableName columns batch rowChan
  (r.1, r.2.2)

/-- The batching loop of `DumpTable` driving the buffered replace strategy.
In the source, `DumpTable` only ever calls `insertIntoTable`; the spec treats the
two writers as interchangeable strategies under the same coordinator, so the
loop is instantiated here with the replace step as well. -/
def dumpLoopReplace (tableName : String) (columns : List String) (batch : Int) :
    Nat → Int → List Row → Option (Nat × Int × List Row)
  | 0, inserted, stream =>
    if inserted = batch then none else some (0, 0, stream)
  | fuel + 1, inserted, stream =>
    if inserted = batch then
      let s := trunkInsertStepReplace tableName columns batch stream
      (dumpLoopReplace tableName columns batch fuel s.1 s.2).map
        (fun r => (r.1 + 1, r.2.1 + s.1, r.2.2))
    else some (0, 0, stream)

/-- The batching loop over the replace strategy, with the same fuel bound. -/
def dumpTableReplace (tableName : String) (columns : List String) (batch : Int)
    (rowChan : List Row) : Option (Nat × Int × List Row) :=
  dumpLoopReplace tableName columns batch (rowChan.length + 1) batch rowChan

/-- Whether `pat` occurs at the start of `l`. -/
def startsWithL : List Char → List Char → Bool
  | [], _ => true
  | _ :: _, [] => false
  | a :: as, b :: bs => a = b && startsWithL as bs

/-- Whether `pat` occurs anywhere inside `l`. -/
def containsSeq (pat : List Char) : List Char → Bool
  | [] => startsWithL pat []
  | b :: bs => startsWithL pat (b :: bs) || containsSeq pat bs

/-- Whether the error message `hay` mentions the text `needle`. -/
def msgContains (hay needle : String) : Bool :=
  containsSeq needle.toList hay.toList

end Klepto

namespace Klepto

/-- C5: the per-field value-encoding functions of the streaming strategy and
of the buffered replace strategy are extensionally equal, and both map null
to the literal `NULL`, text to itself, and a blob to its bytes as text. -/
theorem value_encoders_agree :
    (∀ v : Value, encodeFieldStream v = encodeFieldReplace v) ∧
    encodeFieldStream Value.vnull = "NULL" ∧
    (∀ s : String, encodeFieldStream (Value.text s) = s) ∧
    (∀ bs : List Char, encodeFieldStream (Value.blob bs) = String.mk bs) := by
  refine ⟨fun v => ?_, rfl, fun _ => rfl, fun _ => rfl⟩
  cases v <;> rfl

lemma unescapeBtick_cons_of_ne (c : Char) (l : List Char) (h : c ≠ btick) :
    unescapeBtick (c :: l) = c :: unescapeBtick l := by
  cases l with
  | nil => rfl
  | cons x xs => simp [unescapeBtick, h]

lemma unescapeBtick_escape (cs : List Char) :
    unescapeBtick ((cs.map escapeBtick).flatten) = cs := by
  induction cs with
  | nil => rfl
  | cons c rest ih =>
    by_cases h : c = btick
    · subst h
      simp only [List.map_cons, List.flatten_cons, escapeBtick, if_pos rfl,
        List.cons_append]
      show unescapeBtick (btick :: btick :: _) = _
      rw [unescapeBtick]
      simp [ih]
    · simp only [List.map_cons, List.flatten_cons, escapeBtick, if_neg h,
        List.cons_append, List.nil_append]
      rw [unescapeBtick_cons_of_ne c _ h, ih]

lemma unquote_quote (name : String) :
    unquoteIdentifier (quoteIdentifier name) = some name := by
  have hlist : (quoteIdentifier name).toList =
      btick :: (name.toList.map escapeBtick).flatten ++ [btick] := rfl
  rw [unquoteIdentifier]
  simp only [hlist]
  rw [if_pos]
  · have hd : (btick :: (name.toList.map escapeBtick).flatten ++ [btick]).drop 1 =
        (name.toList.map escapeBtick).flatten ++ [btick] := rfl
    rw [hd, List.dropLast_concat, unescapeBtick_escape]
    rfl
  · exact ⟨by simp, rfl, List.getLast?_concat _⟩

/-- C6: `quoteIdentifier` wraps a name in backticks after doubling embedded
backticks; stripping the outer backticks and collapsing doubled backticks
recovers the original name, and the quoting is injective. -/
theorem quoteIdentifier_roundtrip :
    (∀ name : String, unquoteIdentifier (quoteIdentifier name) = some name) ∧
    (∀ a b : String, quoteIdentifier a = quoteIdentifier b → a = b) := by
  refine ⟨unquote_quote, fun a b h => ?_⟩
  have := congrArg unquoteIdentifier h
  rw [unquote_quote, unquote_quote] at this
  exact Option.some.inj this

/-- C6 witness: the round trip and injectivity at a name with a backtick. -/
theorem quoteIdentifier_roundtrip_witness :
    unquoteIdentifier (quoteIdentifier "a`b") = some "a`b" ∧ ("x" : String) = "x" :=
  ⟨quoteIdentifier_roundtrip.1 "a`b", quoteIdentifier_roundtrip.2 "x" "x" rfl⟩

lemma rowGet_append_vnull (row : Row) (col : String)
    (h : List.lookup col row = none) (c : String) :
    rowGet (row ++ [(col, Value.vnull)]) c = rowGet row c := by
  induction row with
  | nil =>
    simp only [List.nil_append, rowGet, List.lookup_cons]
    cases hcc : c == col <;> rfl
  | cons kv rest ih =>
    obtain ⟨k, v⟩ := kv
    rw [List.lookup_cons] at h
    cases hck : col == k
    · rw [hck] at h
      simp only [List.cons_append, rowGet, List.lookup_cons]
      cases hc : c == k
      · exact ih h
      · rfl
    · rw [hck] at h
      exact Option.noConfusion h

/-- C10: a row lacking an entry for a column encodes that field exactly as
if the value were null — the literal `NULL` — and, under both strategies,
the whole row encodes identically to the row with an explicit null there. -/
theorem missing_column_encodes_null (row : Row) (col : String)
    (h : List.lookup col row = none) :
    encodeFieldStream (rowGet row col) = "NULL" ∧
    encodeFieldReplace (rowGet row col) = "NULL" ∧
    ∀ columns : List String,
      rowValuesStream columns (row ++ [(col, Value.vnull)]) = rowValuesStream columns row ∧
      rowValuesReplace columns (row ++ [(col, Value.vnull)]) = rowValuesReplace columns row := by
  refine ⟨?_, ?_, fun columns => ⟨?_, ?_⟩⟩
  · rw [rowGet, h]; rfl
  · rw [rowGet, h]; rfl
  · exact List.map_congr_left fun c _ => by rw [rowGet_append_vnull row col h c]
  · exact List.map_congr_left fun c _ => by rw [rowGet_append_vnull row col h c]

/-- C10 witness: a concrete row missing column `b`. -/
theorem missing_column_encodes_null_witness :
    encodeFieldStream (rowGet [("a", Value.text "x")] "b") = "NULL" ∧
    rowValuesReplace ["a", "b"] ([("a", Value.text "x")] ++ [("b", Value.vnull)]) =
      rowValuesReplace ["a", "b"] [("a", Value.text "x")] := by
  have h := missing_column_encodes_null [("a", Value.text "x")] "b" rfl
  exact ⟨h.1, (h.2.2 ["a", "b"]).2⟩

lemma startsWithL_self_append (l t : List Char) : startsWithL l (l ++ t) = true := by
  induction l with
  | nil => rfl
  | cons c cs ih => simp [startsWithL, ih]

lemma containsSeq_nil_pat (l : List Char) : containsSeq [] l = true := by
  cases l with
  | nil => rfl
  | cons b bs => simp [containsSeq, startsWithL]

lemma containsSeq_between (pat pre post : List Char) :
    containsSeq pat (pre ++ (pat ++ post)) = true := by
  induction pre with
  | nil =>
    rw [List.nil_append]
    cases pat with
    | nil => exact containsSeq_nil_pat _
    | cons p ps =>
      rw [List.cons_append, containsSeq, ← List.cons_append,
        startsWithL_self_append, Bool.true_or]
  | cons x xs ih => rw [List.cons_append, containsSeq, ih, Bool.or_true]

lemma toList_append (a b : String) : (a ++ b).toList = a.toList ++ b.toList :=
  String.data_append a b

lemma msgContains_right (a b : String) : msgContains (a ++ b) b = true := by
  rw [msgContains, toList_append]
  have := containsSeq_between b.toList a.toList []
  rwa [List.append_nil] at this

lemma msgContains_left (a b : String) : msgContains (a ++ b) a = true := by
  rw [msgContains, toList_append]
  exact containsSeq_between a.toList [] b.toList

lemma msgContains_mid (a b c : String) : msgContains (a ++ (b ++ c)) b = true := by
  rw [msgContains, toList_append, toList_append]
  exact containsSeq_between b.toList a.toList c.toList

/-- C9 (amended): `Close` returns no error when neither teardown call fails;
when exactly one fails its message is reported; when both fail the single
returned error names both failure kinds but wraps only the toggle-restore
error — the connection-close message itself is discarded. -/
theorem close_error_reporting (st : DumperState) (ge ce : String)
    (hdgi : st.disableGlobalInline = true) :
    closeDumper st none none = none ∧
    closeDumper st (some ge) none =
      some ("failed `SET GLOBAL local_infile=0` please do this manually! : " ++ ge) ∧
    msgContains ("failed `SET GLOBAL local_infile=0` please do this manually! : " ++ ge)
      ge = true ∧
    closeDumper st none (some ce) = some ("failed to close mysql connection: " ++ ce) ∧
    msgContains ("failed to close mysql connection: " ++ ce) ce = true ∧
    closeDumper st (some ge) (some ce) =
      some ("failed to close mysql connection and `SET GLOBAL local_infile=0`: " ++ ge) ∧
    msgContains ("failed to close mysql connection and `SET GLOBAL local_infile=0`: " ++ ge)
      ge = true ∧
    msgContains ("failed to close mysql connection and `SET GLOBAL local_infile=0`: " ++ ge)
      "failed to close mysql connection" = true ∧
    msgContains ("failed to close mysql connection and `SET GLOBAL local_infile=0`: " ++ ge)
      "SET GLOBAL local_infile=0" = true := by
  refine ⟨?_, ?_, msgContains_right _ _, ?_, msgContains_right _ _, ?_,
    msgContains_right _ _, ?_, ?_⟩
  · simp [closeDumper, hdgi]
  · simp [closeDumper, hdgi]
  · simp [closeDumper, hdgi]
  · simp [closeDumper, hdgi]
  · rw [show ("failed to close mysql connection and `SET GLOBAL local_infile=0`: " : String) =
      "failed to close mysql connection" ++ " and `SET GLOBAL local_infile=0`: " from rfl,
      String.append_assoc]
    exact msgContains_left _ _
  · rw [show ("failed to close mysql connection and `SET GLOBAL local_infile=0`: " : String) =
      ("failed to close mysql connection and `" ++ "SET GLOBAL local_infile=0") ++ "`: "
      from rfl, String.append_assoc, String.append_assoc]
    exact msgContains_mid _ _ _

/-- C9 witness: the reporting behavior at concrete teardown outcomes. -/
theorem close_error_reporting_witness :
    closeDumper { onceDone := true, disableGlobalInline := true } none none = none ∧
    closeDumper { onceDone := true, disableGlobalInline := true } none (some "c") =
      some ("failed to close mysql connection: " ++ "c") :=
  ⟨(close_error_reporting { onceDone := true, disableGlobalInline := true } "g" "c" rfl).1,
   (close_error_reporting { onceDone := true, disableGlobalInline := true } "g" "c" rfl).2.2.2.1⟩

/-- C9 counterexample: when both teardown calls fail, the error `Close`
returns wraps only the toggle-restore failure; the message of the
connection-close failure (`CLOSEBOOM`) does not appear in it, so the two
failures are not both captured in the combined error. -/
theorem close_both_fail_counterexample :
    closeDumper { onceDone := true, disableGlobalInline := true }
        (some "RESETBOOM") (some "CLOSEBOOM") =
      some "failed to close mysql connection and `SET GLOBAL local_infile=0`: RESETBOOM" ∧
    msgContains "failed to close mysql connection and `SET GLOBAL local_infile=0`: RESETBOOM"
      "CLOSEBOOM" = false :=
  ⟨rfl, rfl⟩

lemma runDumpTableCalls_eq (env : GuardEnv) (n : Nat) :
    runDumpTableCalls env n =
      (if n = 0 then initialDumper
       else { onceDone := true,
              disableGlobalInline := env.readOk && !env.serverEnabled && env.setOk },
       if n = 0 then 0 else 1) := by
  induction n with
  | zero => rfl
  | succ m ih =>
    rw [runDumpTableCalls, ih]
    by_cases hm : m = 0
    · subst hm
      obtain ⟨ro, se, so⟩ := env
      cases ro <;> cases se <;> cases so <;> rfl
    · simp only [if_neg hm, if_neg (Nat.succ_ne_zero m)]
      rfl

/-- C4: across any sequence of `DumpTable` calls in one session, the global
local_infile setting is read at most once; if the read finds it enabled no
teardown obligation is recorded; and `Close` issues
`SET GLOBAL local_infile=0` iff this session itself enabled the setting. -/
theorem local_infile_guard_once (env : GuardEnv) (n : Nat) :
    (runDumpTableCalls env n).2 ≤ 1 ∧
    (env.serverEnabled = true →
      ((runDumpTableCalls env n).1).disableGlobalInline = false) ∧
    (closeIssuesReset (runDumpTableCalls env n).1 = true ↔
      1 ≤ n ∧ env.readOk = true ∧ env.serverEnabled = false ∧ env.setOk = true) := by
  rw [runDumpTableCalls_eq]
  by_cases hn : n = 0
  · subst hn
    simp [initialDumper, closeIssuesReset]
  · simp only [if_neg hn, closeIssuesReset]
    refine ⟨le_refl 1, fun hse => by simp [hse], ?_⟩
    simp [Bool.and_eq_true, Bool.not_eq_true', Nat.one_le_iff_ne_zero, hn, and_assoc]

lemma csvLoop_count (columns : List String) (batch : Int) (hB : 1 ≤ batch) :
    ∀ (rows : List Row) (k : Int), 0 ≤ k → k < batch →
      (csvLoop columns batch k rows).1 = min batch (k + rows.length) ∧
      (csvLoop columns batch k rows).2.2 =
        rows.drop (min batch (k + rows.length) - k).toNat := by
  intro rows
  induction rows with
  | nil =>
    intro k hk0 hkB
    refine ⟨?_, ?_⟩
    · show k = min batch (k + (([] : List Row).length : Int))
      simp only [List.length_nil, Nat.cast_zero]
      omega
    · simp [csvLoop]
  | cons row rest ih =>
    intro k hk0 hkB
    simp only [csvLoop]
    by_cases hstop : batch ≤ k + 1
    · rw [if_pos hstop]
      have hmin : min batch (k + (((row :: rest).length : Nat) : Int)) = k + 1 := by
        simp only [List.length_cons]
        push_cast
        omega
      refine ⟨by rw [hmin], ?_⟩
      have htn : (min batch (k + (((row :: rest).length : Nat) : Int)) - k).toNat = 1 := by
        rw [hmin]; omega
      rw [htn]
      simp
    · rw [if_neg hstop]
      obtain ⟨ihc, ihr⟩ := ih (k + 1) (by omega) (by omega)
      refine ⟨?_, ?_⟩
      · show (csvLoop columns batch (k + 1) rest).1 = _
        rw [ihc]
        simp only [List.length_cons]
        push_cast
        omega
      · show (csvLoop columns batch (k + 1) rest).2.2 = _
        rw [ihr]
        have harith : (min batch (k + (((row :: rest).length : Nat) : Int)) - k).toNat =
            (min batch ((k + 1) + (rest.length : Int)) - (k + 1)).toNat + 1 := by
          simp only [List.length_cons]
          push_cast
          omega
        rw [harith, List.drop_succ_cons]

lemma insertIntoTable_count (columns : List String) (batch : Int) (hB : 1 ≤ batch)
    (rows : List Row) :
    (insertIntoTable columns batch rows).1 = min batch (rows.length : Int) ∧
    (insertIntoTable columns batch rows).2.2 =
      rows.drop (min batch (rows.length : Int)).toNat := by
  obtain ⟨h1, h2⟩ := csvLoop_count columns batch hB rows 0 (le_refl 0) (by omega)
  rw [zero_add] at h1
  rw [zero_add, sub_zero] at h2
  exact ⟨h1, h2⟩

lemma dumpLoop_halt (columns : List String) (batch : Int) (fuel : Nat) (k : Int)
    (stream : List Row) (h : k ≠ batch) :
    dumpLoop columns batch fuel k stream = some (0, 0, stream) := by
  cases fuel <;> simp [dumpLoop, h]

lemma dumpLoop_spec (columns : List String) (batch : Int) (hB : 1 ≤ batch) :
    ∀ (n : Nat) (rows : List Row), rows.length ≤ n →
      dumpLoop columns batch (n + 1) batch rows =
        some (rows.length / batch.toNat + 1, (rows.length : Int), []) := by
  intro n
  induction n using Nat.strong_induction_on with
  | _ n ih =>
    intro rows hn
    obtain ⟨hc, hr⟩ := insertIntoTable_count columns batch hB rows
    have hs1 : (trunkInsertStep columns batch rows).1 = min batch (rows.length : Int) := hc
    have hs2 : (trunkInsertStep columns batch rows).2 =
        rows.drop (min batch (rows.length : Int)).toNat := hr
    rw [dumpLoop, if_pos rfl]
    show (dumpLoop columns batch n (trunkInsertStep columns batch rows).1
        (trunkInsertStep columns batch rows).2).map
        (fun r => (r.1 + 1, r.2.1 + (trunkInsertStep columns batch rows).1, r.2.2)) = _
    rw [hs1, hs2]
    by_cases hlen : (rows.length : Int) < batch
    · have hmin : min batch ((rows.length : Nat) : Int) = (rows.length : Int) := by omega
      have hdrop : rows.drop (min batch ((rows.length : Nat) : Int)).toNat = [] := by
        rw [hmin]
        have : ((rows.length : Nat) : Int).toNat = rows.length := by omega
        rw [this, List.drop_length]
      rw [hdrop, hmin, dumpLoop_halt columns batch n _ [] (by omega)]
      have hdiv : rows.length / batch.toNat = 0 := Nat.div_eq_of_lt (by omega)
      simp [hdiv]
    · have hble : batch.toNat ≤ rows.length := by omega
      have hmin : min batch ((rows.length : Nat) : Int) = batch := by omega
      rw [hmin]
      cases n with
      | zero =>
        exfalso
        have : rows.length = 0 := Nat.le_zero.mp hn
        omega
      | succ m =>
        have hlen' : (rows.drop batch.toNat).length ≤ m := by
          rw [List.length_drop]
          omega
        rw [ih m (Nat.lt_succ_self m) _ hlen']
        simp only [Option.map_some']
        refine congrArg some ?_
        simp only [Prod.mk.injEq]
        refine ⟨?_, ?_, trivial⟩
        · rw [List.length_drop, Nat.div_eq_sub_div (by omega) hble]
        · rw [List.length_drop]
          omega

lemma dumpTable_eq (columns : List String) (batch : Int) (hB : 1 ≤ batch)
    (rows : List Row) :
    dumpTable columns batch rows =
      some (rows.length / batch.toNat + 1, (rows.length : Int), []) :=
  dumpLoop_spec columns batch hB rows.length rows (le_refl _)

lemma ceil_div_of_not_dvd (R b : Nat) (hb : 0 < b) (h : ¬ b ∣ R) :
    (R + b - 1) / b = R / b + 1 := by
  have h0 : R % b ≠ 0 := fun hc => h (Nat.dvd_of_mod_eq_zero hc)
  have hdm : b * (R / b) + R % b = R := Nat.div_add_mod R b
  have hrb : R % b < b := Nat.mod_lt _ hb
  have hmul : b * (R / b + 1) = b * (R / b) + b := by ring
  have e1 : R + b - 1 = (R % b - 1) + b * (R / b + 1) := by omega
  rw [e1, Nat.add_mul_div_left _ _ hb, Nat.div_eq_of_lt (by omega), Nat.zero_add]

/-- C1: with batch size `B >= 1` and a stream of `R` rows, the write loop of
`DumpTable` invokes `trunkInsert` (one fresh transaction each time) exactly
`ceil(R/B)` times when `B` does not divide `R`, and `R/B + 1` times when it
does, the extra invocation reading zero rows; the loop continues exactly
while the last count equals `B` and halts the moment it differs. -/
theorem dump_loop_transaction_count (columns : List String) (batch : Int)
    (rows : List Row) (hB : 1 ≤ batch) :
    (¬ batch.toNat ∣ rows.length →
      dumpTable columns batch rows =
        some ((rows.length + batch.toNat - 1) / batch.toNat, (rows.length : Int), [])) ∧
    (batch.toNat ∣ rows.length →
      dumpTable columns batch rows =
        some (rows.length / batch.toNat + 1, (rows.length : Int), [])) ∧
    trunkInsertStep columns batch [] = (0, []) ∧
    (∀ (fuel : Nat) (k : Int) (stream : List Row), k ≠ batch →
      dumpLoop columns batch fuel k stream = some (0, 0, stream)) := by
  refine ⟨?_, fun _ => dumpTable_eq columns batch hB rows, rfl,
    fun fuel k stream hk => dumpLoop_halt columns batch fuel k stream hk⟩
  intro hndvd
  rw [dumpTable_eq columns batch hB rows,
    ceil_div_of_not_dvd rows.length batch.toNat (by omega) hndvd]

/-- C1 witness: three rows with batch size two give two transactions. -/
theorem dump_loop_transaction_count_witness :
    dumpTable [] 2 [[], [], []] = some (2, 3, []) := by
  have h := dump_loop_transaction_count [] 2 [[], [], []] (by omega)
  have h2 := h.1 (by decide)
  simpa using h2

lemma replaceLoop_count_eq_csvLoop (columns : List String) (batch : Int) :
    ∀ (rows : List Row) (k : Int) (buf : String),
      (replaceLoop columns batch k buf rows).1 = (csvLoop columns batch k rows).1 ∧
      (replaceLoop columns batch k buf rows).2.2 = (csvLoop columns batch k rows).2.2 := by
  intro rows
  induction rows with
  | nil => intro k buf; exact ⟨rfl, rfl⟩
  | cons row rest ih =>
    intro k buf
    simp only [replaceLoop, csvLoop]
    by_cases h : batch ≤ k + 1
    · rw [if_pos h, if_pos h]
      exact ⟨rfl, rfl⟩
    · rw [if_neg h, if_neg h]
      exact ih (k + 1) _

lemma trunkInsertStepReplace_eq (tableName : String) (columns : List String)
    (batch : Int) (rows : List Row) :
    trunkInsertStepReplace tableName columns batch rows =
      trunkInsertStep columns batch rows := by
  obtain ⟨h1, h2⟩ := replaceLoop_count_eq_csvLoop columns batch rows 0
    ("replace into " ++ tableName ++ " values ")
  rw [trunkInsertStepReplace, trunkInsertStep, insertIntoTableReplace, insertIntoTable]
  by_cases h0 : (replaceLoop columns batch 0
      ("replace into " ++ tableName ++ " values ") rows).1 = 0
  · rw [if_pos h0]
    exact Prod.ext (by rw [← h1, h0]) (by rw [← h2])
  · rw [if_neg h0]
    exact Prod.ext (by rw [← h1]) (by rw [← h2])

lemma dumpLoopReplace_eq (tableName : String) (columns : List String) (batch : Int) :
    ∀ (fuel : Nat) (inserted : Int) (stream : List Row),
      dumpLoopReplace tableName columns batch fuel inserted stream =
        dumpLoop columns batch fuel inserted stream := by
  intro fuel
  induction fuel with
  | zero => intro inserted stream; rfl
  | succ f ih =>
    intro inserted stream
    rw [dumpLoopReplace, dumpLoop]
    by_cases h : inserted = batch
    · rw [if_pos h, if_pos h]
      show (dumpLoopReplace tableName columns batch f
          (trunkInsertStepReplace tableName columns batch stream).1
          (trunkInsertStepReplace tableName columns batch stream).2).map _ =
        (dumpLoop columns batch f (trunkInsertStep columns batch stream).1
          (trunkInsertStep columns batch stream).2).map _
      rw [trunkInsertStepReplace_eq, ih]
    · rw [if_neg h, if_neg h]

/-- C2: with batch size `B >= 1` and no failures, the batching loop consumes
every row of the stream exactly once under either strategy: the sum of the
per-invocation written-row counts equals `R` and the channel is left empty,
for the streaming writer and for the buffered replace writer alike. -/
theorem rows_written_sum_exact (tableName : String) (columns : List String)
    (batch : Int) (rows : List Row) (hB : 1 ≤ batch) :
    dumpTable columns batch rows =
      some (rows.length / batch.toNat + 1, (rows.length : Int), []) ∧
    dumpTableReplace tableName columns batch rows =
      some (rows.length / batch.toNat + 1, (rows.length : Int), []) := by
  refine ⟨dumpTable_eq columns batch hB rows, ?_⟩
  rw [dumpTableReplace, dumpLoopReplace_eq]
  exact dumpTable_eq columns batch hB rows

/-- C2 witness: five rows with batch size two sum to five under both
strategies. -/
theorem rows_written_sum_exact_witness :
    dumpTable [] 2 [[], [], [], [], []] = some (3, 5, []) ∧
    dumpTableReplace "t" [] 2 [[], [], [], [], []] = some (3, 5, []) := by
  have h := rows_written_sum_exact "t" [] 2 [[], [], [], [], []] (by omega)
  simpa using h

/-- C8 (amended): with batch size `B >= 1`, a single batch invocation of
either strategy writes at most `B` rows; for `B <= 0` the bound fails (see
the counterexample), because the size check runs only after a row is read. -/
theorem batch_count_bounded (tableName : String) (columns : List String)
    (batch : Int) (rows : List Row) (hB : 1 ≤ batch) :
    (insertIntoTable columns batch rows).1 ≤ batch ∧
    (insertIntoTableReplace tableName columns batch rows).1 ≤ batch := by
  have hc := (insertIntoTable_count columns batch hB rows).1
  constructor
  · rw [hc]; omega
  · rw [insertIntoTableReplace]
    have h1 := (replaceLoop_count_eq_csvLoop columns batch rows 0
      ("replace into " ++ tableName ++ " values ")).1
    by_cases h0 : (replaceLoop columns batch 0
        ("replace into " ++ tableName ++ " values ") rows).1 = 0
    · rw [if_pos h0]; omega
    · rw [if_neg h0]
      show (replaceLoop columns batch 0
        ("replace into " ++ tableName ++ " values ") rows).1 ≤ batch
      rw [h1]
      have := (insertIntoTable_count columns batch hB rows).1
      rw [insertIntoTable] at this
      rw [this]
      omega

/-- C8 witness: the bound at batch size two on a one-row stream. -/
theorem batch_count_bounded_witness :
    (insertIntoTable ["c"] 2 [[("c", Value.text "x")]]).1 ≤ 2 :=
  (batch_count_bounded "t" ["c"] 2 [[("c", Value.text "x")]] (by omega)).1

/-- C8 counterexample: with configured batch size zero and a nonempty
stream, both strategies return one row written — which exceeds the
configured maximum — so the bound does not hold at the boundary value. -/
theorem batch_count_bound_counterexample :
    (insertIntoTable ["c"] 0 [[("c", Value.text "x")]]).1 = 1 ∧
    (insertIntoTableReplace "t" ["c"] 0 [[("c", Value.text "x")]]).1 = 1 ∧
    ¬ ((insertIntoTable ["c"] 0 [[("c", Value.text "x")]]).1 ≤ 0) := by
  refine ⟨rfl, rfl, by decide⟩

lemma sepJoin_eq_commaTail (gs : List String) : ∀ g : String,
    sepJoin "," (g :: gs) = g ++ commaTail gs := by
  induction gs with
  | nil => intro g; simp [sepJoin, commaTail, String.append_empty]
  | cons g' gs' ih =>
    intro g
    rw [sepJoin, ih g', commaTail]
    simp [String.append_assoc]

lemma replaceLoop_buf_pos (columns : List String) (batch : Int) :
    ∀ (rows : List Row) (k : Int) (buf : String), 1 ≤ k → k < batch →
      (replaceLoop columns batch k buf rows).2.1 =
        buf ++ commaTail ((rows.take (min batch (k + rows.length) - k).toNat).map
          (fun row => "(" ++ sepJoin "," (rowValuesReplace columns row) ++ ")")) := by
  intro rows
  induction rows with
  | nil =>
    intro k buf hk1 hkB
    have h0 : (min batch (k + (([] : List Row).length : Int)) - k).toNat = 0 := by
      simp only [List.length_nil, Nat.cast_zero]
      omega
    rw [h0]
    simp [replaceLoop, commaTail, String.append_empty]
  | cons row rest ih =>
    intro k buf hk1 hkB
    simp only [replaceLoop]
    rw [if_pos (by omega : k ≠ 0)]
    by_cases hstop : batch ≤ k + 1
    · rw [if_pos hstop]
      have htn : (min batch (k + (((row :: rest).length : Nat) : Int)) - k).toNat = 1 := by
        simp only [List.length_cons]
        push_cast
        omega
      rw [htn]
      simp only [List.take_succ_cons, List.take_zero, List.map_cons, List.map_nil,
        commaTail]
      simp only [String.append_assoc, String.append_empty]
    · rw [if_neg hstop]
      rw [ih (k + 1) _ (by omega) (by omega)]
      have harith : (min batch (k + (((row :: rest).length : Nat) : Int)) - k).toNat =
          (min batch ((k + 1) + (rest.length : Int)) - (k + 1)).toNat + 1 := by
        simp only [List.length_cons]
        push_cast
        omega
      rw [harith, List.take_succ_cons, List.map_cons, commaTail]
      simp only [String.append_assoc]

lemma replaceLoop_buf_zero (columns : List String) (batch : Int) (hB : 1 ≤ batch)
    (rows : List Row) (buf : String) :
    (replaceLoop columns batch 0 buf rows).2.1 =
      buf ++ sepJoin "," ((rows.take (min batch (rows.length : Int)).toNat).map
        (fun row => "(" ++ sepJoin "," (rowValuesReplace columns row) ++ ")")) := by
  cases rows with
  | nil => simp [replaceLoop, sepJoin, String.append_empty]
  | cons row rest =>
    simp only [replaceLoop]
    rw [if_neg (by simp : ¬ (0 : Int) ≠ 0)]
    by_cases hstop : batch ≤ 0 + 1
    · rw [if_pos hstop]
      have htn : (min batch (((row :: rest).length : Nat) : Int)).toNat = 1 := by
        simp only [List.length_cons]
        push_cast
        omega
      rw [htn]
      simp only [List.take_succ_cons, List.take_zero, List.map_cons, List.map_nil,
        sepJoin]
      simp only [String.append_assoc]
    · rw [if_neg hstop]
      simp only [zero_add]
      rw [replaceLoop_buf_pos columns batch rest 1 _ (le_refl 1) (by omega)]
      have harith : (min batch (((row :: rest).length : Nat) : Int)).toNat =
          (min batch (1 + (rest.length : Int)) - 1).toNat + 1 := by
        simp only [List.length_cons]
        push_cast
        omega
      rw [harith, List.take_succ_cons, List.map_cons, sepJoin_eq_commaTail]
      simp only [String.append_assoc]

/-- C7: for a non-empty batch, the statement the buffered replace strategy
executes is exactly `replace into ` ++ the raw table name ++ ` values ` ++
the consumed rows, each as its encoded fields joined by commas inside
parentheses, the row groups joined by commas, with all field text embedded
verbatim (no quoting or escaping). -/
theorem replace_statement_text (tableName : String) (columns : List String)
    (batch : Int) (rows : List Row) (hB : 1 ≤ batch) (hne : rows ≠ []) :
    (insertIntoTableReplace tableName columns batch rows).2.1 =
      some (specReplaceStatement tableName columns
        (rows.take (min batch (rows.length : Int)).toNat)) := by
  have hcnt := (replaceLoop_count_eq_csvLoop columns batch rows 0
    ("replace into " ++ tableName ++ " values ")).1
  have hcsv := (csvLoop_count columns batch hB rows 0 (le_refl 0) (by omega)).1
  rw [zero_add] at hcsv
  have hlen : 0 < rows.length := List.length_pos.mpr hne
  have hpos : (replaceLoop columns batch 0
      ("replace into " ++ tableName ++ " values ") rows).1 ≠ 0 := by
    rw [hcnt]
    show (csvLoop columns batch 0 rows).1 ≠ 0
    rw [hcsv]
    omega
  rw [insertIntoTableReplace, if_neg hpos]
  show some _ = _
  rw [replaceLoop_buf_zero columns batch hB rows _, specReplaceStatement]

/-- C7 witness: one row with a comma inside a text field is embedded
verbatim in the statement. -/
theorem replace_statement_text_witness :
    (insertIntoTableReplace "t" ["c"] 2 [[("c", Value.text "a,b")]]).2.1 =
      some "replace into t values (a,b)" := by
  have h := replace_statement_text "t" ["c"] 2 [[("c", Value.text "a,b")]]
    (by omega) (List.cons_ne_nil _ _)
  rw [h]
  rfl

/-- C3: on a batch error, `DumpTable` does not return the error — it calls
`log.Panic`, terminating the process.  Evaluated at a failure schedule whose
first `trunkInsert` returns an error. -/
theorem dumpTable_panics_on_batch_error :
    dumpTableErr ["c"] 2 (fun _ => some "failed to open transaction: boom") [] =
      DumpResult.panicked "failed to open transaction: boom" ∧
    ∀ msg : String, DumpResult.panicked msg ≠ DumpResult.fail msg := by
  exact ⟨rfl, fun msg hcontra => DumpResult.noConfusion hcontra⟩

end Klepto
